import Mathlib

/-!
Verification development for `scripts/process_invoices.py`: a shallow
embedding of its field-extraction and normalization engine, together with
proofs about the specified behaviour.

Python strings are modelled as `List Char` (wrapped in `String` at the
interfaces), Python `None` as `Option.none`, and a raised exception as
`Except.error`.  The regular expressions used by the script are embedded
as abstract syntax trees and run by a small continuation-passing
backtracking matcher that mirrors CPython `re` semantics on the pattern
features the script uses: leftmost search, greedy quantifiers with
backtracking, and alternation preferring the left branch.
-/

namespace Invoices

/-- The apostrophe character, written via its code point. -/
def apos : Char := Char.ofNat 39

/-- ASCII decimal digit test (`\d` for the ASCII strings this program handles). -/
def isDig (c : Char) : Bool := decide ('0' ≤ c ∧ c ≤ '9')

/-- ASCII lowercase letter test (`[a-z]`). -/
def isLowerAZ (c : Char) : Bool := decide ('a' ≤ c ∧ c ≤ 'z')

/-- ASCII uppercase letter test (`[A-Z]`). -/
def isUpperAZ (c : Char) : Bool := decide ('A' ≤ c ∧ c ≤ 'Z')

/-- ASCII letter test (`[a-zA-Z]`). -/
def isLetterAZ (c : Char) : Bool := isLowerAZ c || isUpperAZ c

/-- The digit character for a value below ten. -/
def digitChar : Nat → Char
  | 0 => '0' | 1 => '1' | 2 => '2' | 3 => '3' | 4 => '4'
  | 5 => '5' | 6 => '6' | 7 => '7' | 8 => '8' | 9 => '9'
  | _ => '*'

/-- Numeric value of a digit character. -/
def digVal (c : Char) : Nat := c.toNat - 48

/-- Fuel-driven worker for `natDigits`; the fuel only needs to exceed the
number of decimal digits, and `natDigits` passes `n + 1`. -/
def natDigitsAux : Nat → Nat → List Char
  | 0, _ => []
  | f + 1, n => if n < 10 then [digitChar n] else natDigitsAux f (n / 10) ++ [digitChar (n % 10)]

/-- Decimal digit list of a natural number, most significant first
(the digits of Python `str(n)` / `f-string` rendering of an `int`). -/
def natDigits (n : Nat) : List Char := natDigitsAux (n + 1) n

/-- Decimal rendering of a natural number, as Python `str(n)`. -/
def natStr (n : Nat) : String := ⟨natDigits n⟩

/-- Value of a list of decimal digit characters, most significant first. -/
def parseDigits (l : List Char) : Nat := l.foldl (fun a c => 10 * a + digVal c) 0

/-- Regular-expression abstract syntax: character classes, concatenation,
alternation (left branch preferred) and greedy Kleene star. -/
inductive RE where
  | eps : RE
  | cls (p : Char → Bool) : RE
  | cat (a b : RE) : RE
  | alt (a b : RE) : RE
  | star (a : RE) : RE

/-- Single literal character. -/
def chr (c : Char) : RE := .cls (fun x => x = c)

/-- `r{n}`: exactly `n` copies of `r`. -/
def reRep : Nat → RE → RE
  | 0, _ => .eps
  | n + 1, r => .cat r (reRep n r)

/-- `r+` (greedy). -/
def rePlus (r : RE) : RE := .cat r (.star r)

/-- `r?` (greedy: matching one copy is preferred). -/
def reOpt (r : RE) : RE := .alt r .eps

/-- Literal string. -/
def reStr : List Char → RE
  | [] => .eps
  | c :: t => .cat (chr c) (reStr t)

/-- Continuation-passing backtracking matcher.  `reMatch fuel r s k` tries to
match `r` against a prefix of `s` and calls `k` on the remaining suffix,
exploring alternatives in the same order as CPython's backtracking engine:
a star greedily tries one more (progress-making) iteration before trying
the continuation, and alternation tries the left branch first.  `fuel`
bounds the recursion depth; every recursive step decrements it, and
`4 * s.length + 64` is ample for the fixed patterns in this file (each
star iteration consumes at least one character). -/
def reMatch : Nat → RE → List Char → (List Char → Option (List Char)) → Option (List Char)
  | 0, _, _, _ => none
  | _ + 1, .eps, s, k => k s
  | _ + 1, .cls _, [], _ => none
  | _ + 1, .cls p, c :: t, k => if p c then k t else none
  | fuel + 1, .cat a b, s, k => reMatch fuel a s (fun t => reMatch fuel b t k)
  | fuel + 1, .alt a b, s, k =>
    match reMatch fuel a s k with
    | some res => some res
    | none => reMatch fuel b s k
  | fuel + 1, .star a, s, k =>
    match reMatch fuel a s
        (fun t => if t.length < s.length then reMatch fuel (.star a) t k else none) with
    | some res => some res
    | none => k s

/-- Attempt to match `r` at the start of `s`; on success return the suffix
left after the match chosen by the backtracking order. -/
def reHead (r : RE) (s : List Char) : Option (List Char) :=
  reMatch (4 * s.length + 64) r s some

/-- `re.search`: try the pattern at each start position from the left;
return `(matched characters, suffix after the match)` of the first
position where it succeeds. -/
def reSearch (r : RE) (s : List Char) : Option (List Char × List Char) :=
  match reHead r s with
  | some rest => some (s.take (s.length - rest.length), rest)
  | none =>
    match s with
    | [] => none
    | _ :: t => reSearch r t

/-- The last `n` characters of a list. -/
def lastN (n : Nat) (l : List Char) : List Char := l.drop (l.length - n)

/-! ## The regular expressions of `process_invoices.py` -/

/-- `[Pp][a-zA-Z]*[-_](\d{3})` (from `proj_code`). -/
def projRE : RE :=
  .cat (.cls (fun c => c = 'P' || c = 'p'))
    (.cat (.star (.cls isLetterAZ))
      (.cat (.cls (fun c => c = '-' || c = '_'))
        (reRep 3 (.cls isDig))))

/-- `\d+\.\d{2}|\d+` (the numeric token of `invoice_amt`). -/
def amtRE : RE :=
  .alt (.cat (rePlus (.cls isDig)) (.cat (chr '.') (reRep 2 (.cls isDig))))
    (rePlus (.cls isDig))

/-- `[A-Z][a-z']+ ([A-Z][A-Za-z'.]+ ?)+` (from `vendor_name`). -/
def vendorRE : RE :=
  .cat (.cls isUpperAZ)
    (.cat (rePlus (.cls (fun c => isLowerAZ c || c = apos)))
      (.cat (chr ' ')
        (rePlus (.cat (.cls isUpperAZ)
          (.cat (rePlus (.cls (fun c => isLetterAZ c || c = apos || c = '.')))
            (reOpt (chr ' ')))))))

/-- `[A-Z][a-z]+ \d+([a-z]*)?, \d{4}` (from `text_date`). -/
def textRE : RE :=
  .cat (.cls isUpperAZ)
    (.cat (rePlus (.cls isLowerAZ))
      (.cat (chr ' ')
        (.cat (rePlus (.cls isDig))
          (.cat (reOpt (.star (.cls isLowerAZ)))
            (.cat (chr ',')
              (.cat (chr ' ') (reRep 4 (.cls isDig))))))))

/-- `(\d+)(st|th|nd|rd)` (the ordinal-suffix pattern of `text_date`). -/
def ordRE : RE :=
  .cat (rePlus (.cls isDig))
    (.alt (reStr ['s', 't'])
      (.alt (reStr ['t', 'h'])
        (.alt (reStr ['n', 'd']) (reStr ['r', 'd']))))

/-- A date separator: a slash or a hyphen. -/
def sepRE : RE := .cls (fun c => c = '/' || c = '-')

/-- `\d{2,4}`, greedy. -/
def d24RE : RE :=
  .cat (.cls isDig) (.cat (.cls isDig) (reOpt (.cat (.cls isDig) (reOpt (.cls isDig)))))

/-- `(\d{2} sep \d{2} sep \d{2,4})|(\d{2,4} sep \d{2} sep \d{2})` with `sep`
a slash or hyphen (from `number_date`). -/
def numRE : RE :=
  .alt
    (.cat (reRep 2 (.cls isDig)) (.cat sepRE (.cat (reRep 2 (.cls isDig)) (.cat sepRE d24RE))))
    (.cat d24RE (.cat sepRE (.cat (reRep 2 (.cls isDig)) (.cat sepRE (reRep 2 (.cls isDig))))))

/-- `[A-Z] W* (space [a-z]+)+` where `W` is a letter, hyphen or slash
(from `description`). -/
def descRE : RE :=
  .cat (.cls isUpperAZ)
    (.cat (.star (.cls (fun c => isLetterAZ c || c = '-' || c = '/')))
      (rePlus (.cat (chr ' ') (rePlus (.cls isLowerAZ)))))

/-! ## Dates: the CPython `strptime` grammars used by the script

`datetime.strptime` compiles a format string to a regular expression
(`_strptime.TimeRE`): `%Y` is exactly four digits, `%m` is
`1[0-2]|0[1-9]|[1-9]`, `%d` is `3[01]|[12]\d|0[1-9]|[1-9]`, `%B`/`%b` are
case-insensitive alternations of the month names, the whole input must be
consumed, and the resulting `datetime` constructor validates the
day-of-month against the month length and requires `1 <= year <= 9999`. -/

/-- Gregorian leap-year rule used by `datetime`. -/
def isLeap (y : Nat) : Bool := y % 4 = 0 && (y % 100 ≠ 0 || y % 400 = 0)

/-- Length of a month as validated by the `datetime` constructor. -/
def daysInMonth (m y : Nat) : Nat :=
  if m = 2 then (if isLeap y then 29 else 28)
  else if m = 4 ∨ m = 6 ∨ m = 9 ∨ m = 11 then 30
  else 31

/-- Full month names (`%B`), indexed 1 to 12. -/
def monthName : Nat → String
  | 1 => "January" | 2 => "February" | 3 => "March" | 4 => "April"
  | 5 => "May" | 6 => "June" | 7 => "July" | 8 => "August"
  | 9 => "September" | 10 => "October" | 11 => "November" | 12 => "December"
  | _ => ""

/-- Abbreviated month names (`%b`), indexed 1 to 12. -/
def monthAbbrev : Nat → String
  | 1 => "Jan" | 2 => "Feb" | 3 => "Mar" | 4 => "Apr"
  | 5 => "May" | 6 => "Jun" | 7 => "Jul" | 8 => "Aug"
  | 9 => "Sep" | 10 => "Oct" | 11 => "Nov" | 12 => "Dec"
  | _ => ""

/-- ASCII lowercase conversion (for the `IGNORECASE` month-name match). -/
def asciiLower : Char → Char
  | 'A' => 'a' | 'B' => 'b' | 'C' => 'c' | 'D' => 'd' | 'E' => 'e' | 'F' => 'f'
  | 'G' => 'g' | 'H' => 'h' | 'I' => 'i' | 'J' => 'j' | 'K' => 'k' | 'L' => 'l'
  | 'M' => 'm' | 'N' => 'n' | 'O' => 'o' | 'P' => 'p' | 'Q' => 'q' | 'R' => 'r'
  | 'S' => 's' | 'T' => 't' | 'U' => 'u' | 'V' => 'v' | 'W' => 'w' | 'X' => 'x'
  | 'Y' => 'y' | 'Z' => 'z'
  | c => c

/-- Case-insensitively strip the word `name` from the front of `s`,
returning the rest of `s` on success. -/
def stripCI : List Char → List Char → Option (List Char)
  | [], s => some s
  | _ :: _, [] => none
  | n :: ns, c :: cs => if asciiLower n = asciiLower c then stripCI ns cs else none

/-- Match a month name at the front of `s` (the `%B`/`%b` field of
`strptime`, an `IGNORECASE` alternation of the twelve names).  No month
name is a prefix of another, so at most one name can match and CPython's
longest-first ordering is immaterial; we try them in calendar order. -/
def monthFromNames (names : Nat → String) : Nat → List Char → Option (Nat × List Char)
  | 0, _ => none
  | i + 1, s =>
    match stripCI (names (13 - (i + 1))).data s with
    | some rest => some (13 - (i + 1), rest)
    | none => monthFromNames names i s

/-- The `datetime(year, month, day)` constructor: `None` models a raised
`ValueError`. -/
def mkDate (y m d : Nat) : Option (Nat × Nat × Nat) :=
  if 1 ≤ y ∧ y ≤ 9999 ∧ 1 ≤ m ∧ m ≤ 12 ∧ 1 ≤ d ∧ d ≤ daysInMonth m y then some (y, m, d)
  else none

/-- Parse `", " %Y` at `s` and require the input to end there (the
"unconverted data remains" check of `strptime`): a comma, a space, then
exactly four digits. -/
def commaYearEnd : List Char → Option Nat
  | ',' :: ' ' :: y1 :: y2 :: y3 :: y4 :: [] =>
    if isDig y1 && isDig y2 && isDig y3 && isDig y4 then
      some (parseDigits [y1, y2, y3, y4])
    else none
  | _ => none

/-- Parse the `%d` field followed by `", " %Y` and the end of input.  The
CPython `%d` pattern is `3[01]|[12]\d|0[1-9]|[1-9]`: all two-digit
alternatives (values 1 to 31, including zero-padded ones) are tried
before the single-digit `[1-9]`, with backtracking into the shorter
alternative when the rest of the format fails to match. -/
def dayCommaYearEnd (s : List Char) : Option (Nat × Nat) :=
  (match s with
   | a :: b :: rest =>
     if isDig a && isDig b && 1 ≤ 10 * digVal a + digVal b && 10 * digVal a + digVal b ≤ 31 then
       (commaYearEnd rest).map (fun y => (10 * digVal a + digVal b, y))
     else none
   | _ => none)
  <|>
  (match s with
   | a :: rest =>
     if isDig a && 1 ≤ digVal a && digVal a ≤ 9 then
       (commaYearEnd rest).map (fun y => (digVal a, y))
     else none
   | _ => none)

/-- `datetime.strptime(s, "<month-name> %d, %Y")` for a family of month
names, returning `(year, month, day)`. -/
def strptimeText (names : Nat → String) (s : List Char) : Option (Nat × Nat × Nat) :=
  match monthFromNames names 12 s with
  | some (m, rest) =>
    match rest with
    | ' ' :: r2 =>
      match dayCommaYearEnd r2 with
      | some (d, y) => mkDate y m d
      | none => none
    | _ => none
  | none => none

/-- Split a character list on a separator character (`str.split(sep)`). -/
def splitOnChar (sep : Char) : List Char → List (List Char)
  | [] => [[]]
  | c :: t =>
    let r := splitOnChar sep t
    if c = sep then [] :: r
    else
      match r with
      | h :: t2 => (c :: h) :: t2
      | [] => [[c]]

/-- The `%m` field applied to one separator-delimited component: one or two
digits with value 1 to 12 (`1[0-2]|0[1-9]|[1-9]`, which accepts exactly
those digit strings). -/
def monthTok (l : List Char) : Option Nat :=
  if l.all isDig && (l.length = 1 || l.length = 2) &&
      1 ≤ parseDigits l && parseDigits l ≤ 12 then some (parseDigits l)
  else none

/-- The `%d` field applied to one separator-delimited component: one or two
digits with value 1 to 31 (`3[01]|[12]\d|0[1-9]|[1-9]`). -/
def dayTok (l : List Char) : Option Nat :=
  if l.all isDig && (l.length = 1 || l.length = 2) &&
      1 ≤ parseDigits l && parseDigits l ≤ 31 then some (parseDigits l)
  else none

/-- The `%Y` field applied to one separator-delimited component: exactly
four digits. -/
def yearTok (l : List Char) : Option Nat :=
  if l.all isDig && l.length = 4 then some (parseDigits l) else none

/-- The six numeric grammars of `number_date`, in source order:
`['%m/%d/%Y', '%m-%d-%Y', '%Y-%m-%d', '%Y/%m/%d', '%d/%m/%Y', '%d-%m-%Y']`. -/
inductive NumFmt where
  | mdySlash | mdyDash | ymdDash | ymdSlash | dmySlash | dmyDash

/-- The separator character of a numeric grammar. -/
def NumFmt.sep : NumFmt → Char
  | .mdySlash | .ymdSlash | .dmySlash => '/'
  | .mdyDash | .ymdDash | .dmyDash => '-'

/-- Combine the three parsed fields of a numeric grammar: if any field
failed its pattern the format does not match; otherwise the `datetime`
constructor validates the triple. -/
def fieldsToDate (mo da yr : Option Nat) : Option (Nat × Nat × Nat) :=
  match mo, da, yr with
  | some m, some d, some y => mkDate y m d
  | _, _, _ => none

/-- `datetime.strptime(s, fmt)` for one numeric grammar: the match string
always has the shape `digits sep digits sep digits`, so the format regex
matches exactly when splitting on the grammar's separator yields three
components each accepted by its field pattern, and the `datetime`
constructor then validates the triple. -/
def strptimeNum (fmt : NumFmt) (s : List Char) : Option (Nat × Nat × Nat) :=
  match splitOnChar fmt.sep s with
  | [a, b, c] =>
    match fmt with
    | .mdySlash | .mdyDash => fieldsToDate (monthTok a) (dayTok b) (yearTok c)
    | .ymdDash | .ymdSlash => fieldsToDate (monthTok b) (dayTok c) (yearTok a)
    | .dmySlash | .dmyDash => fieldsToDate (monthTok b) (dayTok a) (yearTok c)
  | _ => none

/-- `f"{month} {day}, {year}"` with `month = date_obj.strftime("%B")`,
`day = date_obj.day` and `year = date_obj.year`: the canonical date
rendering shared by `text_date` and `number_date`. -/
def renderDate (ymd : Nat × Nat × Nat) : String :=
  monthName ymd.2.1 ++ " " ++ natStr ymd.2.2 ++ ", " ++ natStr ymd.1

/-! ## The extractors -/

/-- Fuel-driven worker for `ordinalSub`: at each position try the ordinal
pattern; on a match emit its first group (the match minus its two suffix
letters) and continue after the match, else emit the character and move
on.  The fuel only needs to exceed the input length (each step consumes
at least one character). -/
def ordinalSubAux : Nat → List Char → List Char
  | 0, s => s
  | _ + 1, [] => []
  | f + 1, c :: t =>
    match reHead ordRE (c :: t) with
    | some rest =>
      (c :: t).take ((c :: t).length - rest.length - 2) ++ ordinalSubAux f rest
    | none => c :: ordinalSubAux f t

/-- `re.sub(r'(\d+)(st|th|nd|rd)', r'\1', s)`: replace every
(leftmost, non-overlapping) digit-run-plus-ordinal-suffix by the digit
run alone.  The group `(\d+)` is the match minus its two-letter suffix. -/
def ordinalSub (s : List Char) : List Char := ordinalSubAux (s.length + 1) s

/-- `text_date`: scan the fragments; on the first fragment whose text
matches the text-date pattern, strip ordinal suffixes from the match and
try `"%B %d, %Y"` then `"%b %d, %Y"`; if neither grammar parses, the
function returns `None` without looking at later fragments. -/
def text_date : List String → Option String
  | [] => none
  | t :: rest =>
    match reSearch textRE t.data with
    | some (m, _) =>
      match strptimeText monthName (ordinalSub m) with
      | some ymd => some (renderDate ymd)
      | none =>
        match strptimeText monthAbbrev (ordinalSub m) with
        | some ymd => some (renderDate ymd)
        | none => none
    | none => text_date rest

/-- The numeric grammars in source order. -/
def numFmtOrder : List NumFmt :=
  [.mdySlash, .mdyDash, .ymdDash, .ymdSlash, .dmySlash, .dmyDash]

/-- Try the six numeric grammars in order; first success wins. -/
def tryNumFmts : List NumFmt → List Char → Option (Nat × Nat × Nat)
  | [], _ => none
  | f :: fs, s =>
    match strptimeNum f s with
    | some ymd => some ymd
    | none => tryNumFmts fs s

/-- `number_date`: scan the fragments; on the first fragment whose text
matches the numeric-date pattern, try the six grammars in order; if none
parses, the function returns `None` without looking at later fragments. -/
def number_date : List String → Option String
  | [] => none
  | t :: rest =>
    match reSearch numRE t.data with
    | some (m, _) =>
      match tryNumFmts numFmtOrder m with
      | some ymd => some (renderDate ymd)
      | none => none
    | none => number_date rest

/-- `date_cleaner`: per fragment, try the text path then the numeric path;
first truthy result wins (both paths only ever return non-empty strings). -/
def date_cleaner : List String → Option String
  | [] => none
  | t :: rest =>
    match text_date [t] with
    | some r => some r
    | none =>
      match number_date [t] with
      | some r => some r
      | none => date_cleaner rest

/-- `proj_code`: return `"PRO-" + match[1]` for the first fragment matching
the project-code pattern.  The capture `(\d{3})` is the last three
characters of the whole match, since the pattern ends with the group. -/
def proj_code : List String → Option String
  | [] => none
  | t :: rest =>
    match reSearch projRE t.data with
    | some (m, _) => some ("PRO-" ++ String.mk (lastN 3 m))
    | none => proj_code rest

/-- `vendor_name`: return the whole match of the business-name pattern on
the first fragment that has one. -/
def vendor_name : List String → Option String
  | [] => none
  | t :: rest =>
    match reSearch vendorRE t.data with
    | some (m, _) => some (String.mk m)
    | none => vendor_name rest

/-- `description`: return the whole match of the description pattern on the
first fragment that has one. -/
def description : List String → Option String
  | [] => none
  | t :: rest =>
    match reSearch descRE t.data with
    | some (m, _) => some (String.mk m)
    | none => description rest

/-! ## Amount reconstruction -/

/-- A raised Python exception. -/
inductive PyErr where
  | valueError
deriving DecidableEq

/-- `re.sub(r'[?,]', '', text)`: drop question marks and commas. -/
def cleanQC (s : List Char) : List Char := s.filter (fun c => !(c = '?' || c = ','))

/-- The numeric tokens collected by `invoice_amt`: skip any fragment
containing a hyphen or a slash; otherwise search the cleaned fragment for
`\d+\.\d{2}|\d+` and keep the first match, if any. -/
def amtTokens : List String → List (List Char)
  | [] => []
  | t :: rest =>
    if t.data.any (fun c => c = '-') || t.data.any (fun c => c = '/') then amtTokens rest
    else
      match reSearch amtRE (cleanQC t.data) with
      | some (m, _) => m :: amtTokens rest
      | none => amtTokens rest

/-- `float(s)` on the strings reachable here (concatenations of decimal
tokens, or empty): defined when `s` is non-empty, consists of digits and
at most one decimal point, and contains at least one digit; the value is
returned as its exact decimal notation, the pair (digits before the
point, digits after the point).  `none` models the raised `ValueError` —
in particular `float('')` raises. -/
def pyFloat (s : List Char) : Option (List Char × List Char) :=
  if s ≠ [] ∧ s.all (fun c => isDig c || c = '.') ∧
      (s.filter (fun c => c = '.')).length ≤ 1 ∧ s.any isDig then
    some (s.takeWhile (fun c => c ≠ '.'),
      s.drop ((s.takeWhile (fun c => c ≠ '.')).length + 1))
  else none

/-- Insert thousands separators into a reversed digit list: a comma before
every group of three counted from the right. -/
def groupThousandsRev : Nat → List Char → List Char
  | _, [] => []
  | k, c :: t =>
    if k = 3 ∧ t ≠ [] then c :: ',' :: groupThousandsRev 1 t
    else c :: groupThousandsRev (k + 1) t

/-- `f'{x:,.2f}'` for the nonnegative decimal value `ip.fp`: round
half-to-even to two decimals, group the integer digits in threes with
commas, always show two decimals.  (On values with at most two decimal
digits — every value this program prints in practice — this agrees
exactly with CPython's rounding of the underlying binary64.) -/
def formatThousands (ip fp : List Char) : String :=
  let base : Nat := parseDigits ip * 100 + 10 * digVal ((fp.take 1).headD '0') +
    digVal ((fp.drop 1).headD '0')
  let rest : List Char := fp.drop 2
  let cents : Nat :=
    if rest.all (fun c => c = '0') then base
    else if digVal (rest.headD '0') < 5 then base
    else if digVal (rest.headD '0') = 5 ∧ (rest.drop 1).all (fun c => c = '0') then
      (if base % 2 = 0 then base else base + 1)
    else base + 1
  String.mk ((groupThousandsRev 1 (natDigits (cents / 100)).reverse).reverse) ++ "." ++
    (if cents % 100 < 10 then "0" ++ natStr (cents % 100) else natStr (cents % 100))

/-- `invoice_amt`: collect the numeric tokens, join them, convert with
`float` and format as currency; `float` of the empty or a non-numeric
string raises `ValueError` (`Except.error`), which the script does not
catch. -/
def invoice_amt (frags : List String) : Except PyErr String :=
  match pyFloat (amtTokens frags).flatten with
  | some (ip, fp) => .ok ("$" ++ formatThousands ip fp)
  | none => .error .valueError

/-! ## The Record Assembler

A normalized record is a Python `dict`, modelled as an association list
in insertion order.  `today` stands for
`datetime.now().strftime("%B %d, %Y")`, which the script computes at
assembly time. -/

/-- A normalized record: keys with their values, in insertion order. -/
abbrev Record := List (String × String)

/-- The keys of a record. -/
def recKeys (rec : Record) : List String := rec.map Prod.fst

/-- `rec[k] = v`: overwrite in place, else append (Python `dict` update). -/
def setKey (rec : Record) (k v : String) : Record :=
  match rec with
  | [] => [(k, v)]
  | (k0, v0) :: rest => if k0 = k then (k, v) :: rest else (k0, v0) :: setKey rest k v

/-- `x or "MISSING"` applied to an extractor's `Option String` result:
`None` and the empty string are falsy. -/
def orMissing : Option String → String
  | some s => if s = "" then "MISSING" else s
  | none => "MISSING"

/-- `x or "MISSING"` applied to `invoice_amt`'s result (which, when it does
not raise, is always a non-empty string, but we keep the truthiness test
of the source). -/
def orMissingStr (s : String) : String := if s = "" then "MISSING" else s

/-- The CSV-row path of the Record Assembler (the body of the first
processing loop): build the record field by field; a `ValueError` raised
by `invoice_amt` propagates and aborts the run. -/
def csvAssemble (today : String) (frags : List String) : Except PyErr Record :=
  match invoice_amt frags with
  | .error e => .error e
  | .ok amt =>
    .ok [("Vendor", orMissing (vendor_name frags)),
      ("Amount", orMissingStr amt),
      ("Date Processed", today),
      ("Project Code", orMissing (proj_code frags)),
      ("Description", orMissing (description frags)),
      ("Original Date", orMissing (date_cleaner frags))]

/-- Does `pat` occur as a contiguous substring of `s`? (Python `in`.) -/
def hasInfixChars (pat : List Char) : List Char → Bool
  | [] => pat.isPrefixOf []
  | c :: t => pat.isPrefixOf (c :: t) || hasInfixChars pat t

/-- Python whitespace test for `str.strip` (ASCII subset; the input files
contain no exotic whitespace). -/
def isPySpace (c : Char) : Bool :=
  c = ' ' || c = Char.ofNat 9 || c = Char.ofNat 10 || c = Char.ofNat 13 ||
    c = Char.ofNat 11 || c = Char.ofNat 12

/-- `str.strip()`. -/
def pyStrip (s : List Char) : List Char :=
  ((s.dropWhile isPySpace).reverse.dropWhile isPySpace).reverse

/-- `line.split(':', 1)[1]`: everything after the first colon (the caller
has checked that a colon is present). -/
def afterColon (s : List Char) : List Char := (s.dropWhile (fun c => c ≠ ':')).drop 1

/-- Finish a text-block record at a separator (or at end of file): add the
two timestamp fields and emit it. -/
def finishTxtRecord (today : String) (rec : Record) : Record :=
  setKey (setKey rec "Date Processed" today) "Generated On" today

/-- One labelled line of a text block: route the value after the colon to
the extractor selected by the line's label prefix; unlabelled lines leave
the record unchanged.  `line` is the stripped line. -/
def txtRouteLine (line : List Char) (rec : Record) : Except PyErr Record :=
  let cleaned : String := ⟨pyStrip (afterColon line)⟩
  if ("Vendor: ".data).isPrefixOf line then
    .ok (setKey rec "Vendor" (orMissing (vendor_name [cleaned])))
  else if ("Amount: ".data).isPrefixOf line then
    match invoice_amt [cleaned] with
    | .error e => .error e
    | .ok amt => .ok (setKey rec "Amount" (orMissingStr amt))
  else if ("Project: ".data).isPrefixOf line then
    .ok (setKey rec "Project Code" (orMissing (proj_code [cleaned])))
  else if ("Date: ".data).isPrefixOf line then
    .ok (setKey rec "Original Date" (orMissing (date_cleaner [cleaned])))
  else if ("Description: ".data).isPrefixOf line then
    .ok (setKey rec "Description" (orMissing (description [cleaned])))
  else .ok rec

/-- The labeled-text-block path of the Record Assembler (the second
processing loop), over the file's lines: separator lines flush the
accumulated record (adding the timestamp fields), header lines and lines
without a colon are skipped, labelled lines are routed by prefix, and a
final non-empty record is flushed at end of file. -/
def txtProcess (today : String) : List String → Record → Except PyErr (List Record)
  | [], rec => if rec = [] then .ok [] else .ok [finishTxtRecord today rec]
  | l :: ls, rec =>
    if hasInfixChars ['-', '-', '-'] l.data then
      if rec = [] then txtProcess today ls []
      else
        match txtProcess today ls [] with
        | .error e => .error e
        | .ok recs => .ok (finishTxtRecord today rec :: recs)
    else if l.data = [] ∨ l.data.any (fun c => c = '=') ∨ ¬ l.data.any (fun c => c = ':') then
      txtProcess today ls rec
    else
      match txtRouteLine (pyStrip l.data) rec with
      | .error e => .error e
      | .ok rec2 => txtProcess today ls rec2

/-- A canonical date string, `"<FullMonthName> <Day>, <Year>"` with the day
and year rendered as unpadded decimal integers. -/
def canonDate (m d y : Nat) : String :=
  monthName m ++ " " ++ natStr d ++ ", " ++ natStr y

/-- The vendor string "John O'Brien Consulting" (apostrophe written via its
code point). -/
def obrienName : String := "John O" ++ ⟨[apos]⟩ ++ "Brien Consulting"

/-! ## Basic lemmas -/

@[simp] theorem data_mk (l : List Char) : (String.mk l).data = l := rfl

@[simp] theorem data_append (a b : String) : (a ++ b).data = a.data ++ b.data := by
  cases a; cases b; rfl

@[simp] theorem data_natStr (n : Nat) : (natStr n).data = natDigits n := rfl

theorem isDig_digitChar {k : Nat} (h : k < 10) : isDig (digitChar k) = true := by
  interval_cases k <;> decide

theorem digVal_digitChar {k : Nat} (h : k < 10) : digVal (digitChar k) = k := by
  interval_cases k <;> decide

/-- A digit character differs from any non-digit character. -/
theorem digitChar_ne {k : Nat} {x : Char} (h : k < 10) (hx : isDig x = false) :
    digitChar k ≠ x := by
  intro he
  rw [← he, isDig_digitChar h] at hx
  cases hx

/-- A character known to be a digit differs from any non-digit character. -/
theorem ne_of_isDig {c x : Char} (hc : isDig c = true) (hx : isDig x = false) : c ≠ x := by
  intro he
  subst he
  rw [hc] at hx
  cases hx

theorem natDigitsAux_irrel :
    ∀ f g n : Nat, n < f → n < g → natDigitsAux f n = natDigitsAux g n := by
  intro f
  induction f with
  | zero => omega
  | succ f ih =>
    intro g n hf hg
    cases g with
    | zero => omega
    | succ g =>
      rw [natDigitsAux, natDigitsAux]
      by_cases h10 : n < 10
      · simp [h10]
      · simp only [if_neg h10]
        rw [ih g (n / 10) (by omega) (by omega)]

theorem natDigits_lt {n : Nat} (h : n < 10) : natDigits n = [digitChar n] := by
  simp [natDigits, natDigitsAux, h]

theorem natDigits_step {n : Nat} (h : 10 ≤ n) :
    natDigits n = natDigits (n / 10) ++ [digitChar (n % 10)] := by
  show natDigitsAux (n + 1) n = _
  rw [natDigitsAux, if_neg (by omega)]
  rw [natDigitsAux_irrel n (n / 10 + 1) (n / 10) (by omega) (by omega)]
  rfl

theorem natDigits_two {n : Nat} (h1 : 10 ≤ n) (h2 : n < 100) :
    natDigits n = [digitChar (n / 10), digitChar (n % 10)] := by
  rw [natDigits_step h1, natDigits_lt (by omega)]
  rfl

theorem natDigits_four {n : Nat} (h1 : 1000 ≤ n) (h2 : n ≤ 9999) :
    natDigits n =
      [digitChar (n / 1000), digitChar (n / 100 % 10), digitChar (n / 10 % 10),
        digitChar (n % 10)] := by
  have e1 : n / 10 / 10 = n / 100 := by omega
  have e2 : n / 100 / 10 = n / 1000 := by omega
  rw [natDigits_step (by omega), natDigits_step (by omega : 10 ≤ n / 10), e1,
    natDigits_step (by omega : 10 ≤ n / 100), e2, natDigits_lt (by omega)]
  simp

@[simp] theorem fieldsToDate_yr_none (mo da : Option Nat) : fieldsToDate mo da none = none := by
  rcases mo <;> rcases da <;> rfl

@[simp] theorem fieldsToDate_mo_none (da yr : Option Nat) : fieldsToDate none da yr = none := by
  rcases da <;> rcases yr <;> rfl

/-- `setKey` puts its key into the record. -/
theorem mem_recKeys_setKey (rec : Record) (k v : String) : k ∈ recKeys (setKey rec k v) := by
  induction rec with
  | nil => simp [setKey, recKeys]
  | cons h t ih =>
    obtain ⟨k0, v0⟩ := h
    by_cases hk : k0 = k
    · simp [setKey, hk, recKeys]
    · simp only [setKey, if_neg hk, recKeys, List.map_cons, List.mem_cons]
      exact Or.inr ih

/-- `setKey` keeps every key that was already present. -/
theorem mem_recKeys_setKey_of_mem {rec : Record} {k0 : String} (k v : String)
    (h : k0 ∈ recKeys rec) : k0 ∈ recKeys (setKey rec k v) := by
  induction rec with
  | nil => cases h
  | cons hd t ih =>
    obtain ⟨k1, v1⟩ := hd
    simp only [recKeys, List.map_cons, List.mem_cons] at h
    by_cases hk : k1 = k
    · rcases h with h | h
      · simp [setKey, hk, recKeys, h]
      · simp only [setKey, if_pos hk, recKeys, List.map_cons, List.mem_cons]
        right
        simpa [recKeys] using h
    · rcases h with h | h
      · simp [setKey, if_neg hk, recKeys, h]
      · simp only [setKey, if_neg hk, recKeys, List.map_cons, List.mem_cons]
        exact Or.inr (ih h)

/-- Both timestamp keys are present after a text-block record is finished. -/
theorem finishTxtRecord_keys (today : String) (rec : Record) :
    "Date Processed" ∈ recKeys (finishTxtRecord today rec) ∧
      "Generated On" ∈ recKeys (finishTxtRecord today rec) := by
  constructor
  · exact mem_recKeys_setKey_of_mem _ _ (mem_recKeys_setKey rec _ _)
  · exact mem_recKeys_setKey _ _ _

/-- On a string with no digit characters, the numeric-token pattern of
`invoice_amt` finds no match. -/
theorem amtSearch_none : ∀ s : List Char, (∀ c ∈ s, isDig c = false) → reSearch amtRE s = none := by
  intro s
  induction s with
  | nil => intro _; decide
  | cons c t ih =>
    intro h
    have hc : isDig c = false := h c (List.mem_cons_self _ _)
    have hhead : reHead amtRE (c :: t) = none := by
      simp [reHead, reMatch, amtRE, rePlus, hc]
    rw [reSearch, hhead]
    exact ih (fun x hx => h x (List.mem_cons_of_mem _ hx))

/-- When every fragment is either skipped (hyphen or slash) or digit-free,
no numeric token is collected. -/
theorem amtTokens_eq_nil : ∀ frags : List String,
    (∀ f ∈ frags, ('-' ∈ f.data) ∨ ('/' ∈ f.data) ∨ ∀ c ∈ f.data, isDig c = false) →
    amtTokens frags = [] := by
  intro frags
  induction frags with
  | nil => intro _; rfl
  | cons f rest ih =>
    intro h
    have hf := h f (List.mem_cons_self _ _)
    have hrest := ih (fun x hx => h x (List.mem_cons_of_mem _ hx))
    rw [amtTokens]
    by_cases hcond :
        (f.data.any (fun c => c = '-') || f.data.any (fun c => c = '/')) = true
    · simp [hcond, hrest]
    · have hnod : ∀ c ∈ f.data, isDig c = false := by
        rcases hf with hdash | hslash | hnd
        · exfalso
          apply hcond
          simp only [Bool.or_eq_true, List.any_eq_true]
          exact Or.inl ⟨'-', hdash, by decide⟩
        · exfalso
          apply hcond
          simp only [Bool.or_eq_true, List.any_eq_true]
          exact Or.inr ⟨'/', hslash, by decide⟩
        · exact hnd
      have hclean : ∀ c ∈ cleanQC f.data, isDig c = false := by
        intro c hcm
        exact hnod c (List.mem_of_mem_filter hcm)
      simp only [Bool.not_eq_true] at hcond
      simp [hcond, amtSearch_none _ hclean, hrest]

/-- Keys of records emitted by the text-block loop: every flushed record
carries the two timestamp keys added by `finishTxtRecord`, whatever the
labelled lines contributed. -/
theorem txt_keys (today : String) :
    ∀ (lines : List String) (rec : Record) (recs : List Record),
      txtProcess today lines rec = .ok recs →
      ∀ r ∈ recs, "Date Processed" ∈ recKeys r ∧ "Generated On" ∈ recKeys r := by
  intro lines
  induction lines with
  | nil =>
    intro rec recs h r hr
    rw [txtProcess] at h
    by_cases hrec : rec = []
    · rw [if_pos hrec] at h
      cases h
      cases hr
    · rw [if_neg hrec] at h
      cases h
      obtain rfl := List.mem_singleton.mp hr
      exact finishTxtRecord_keys today rec
  | cons l ls ih =>
    intro rec recs h r hr
    rw [txtProcess] at h
    by_cases hsep : hasInfixChars ['-', '-', '-'] l.data = true
    · rw [if_pos hsep] at h
      by_cases hrec : rec = []
      · rw [if_pos hrec] at h
        exact ih [] recs h r hr
      · rw [if_neg hrec] at h
        rcases htp : txtProcess today ls [] with e | recs2
        · rw [htp] at h
          cases h
        · rw [htp] at h
          cases h
          rcases List.mem_cons.mp hr with rfl | hr
          · exact finishTxtRecord_keys today rec
          · exact ih [] recs2 htp r hr
    · rw [if_neg hsep] at h
      by_cases hskip :
          l.data = [] ∨ (l.data.any (fun c => c = '=')) = true ∨
            ¬ (l.data.any (fun c => c = ':')) = true
      · rw [if_pos hskip] at h
        exact ih rec recs h r hr
      · rw [if_neg hskip] at h
        rcases hroute : txtRouteLine (pyStrip l.data) rec with e | rec2
        · rw [hroute] at h
          cases h
        · rw [hroute] at h
          exact ih rec2 recs h r hr

/-! ## The claims -/

/-- Claim C7: the project code extractor maps each of "PROJ-001",
"proj-001", "P-001" and "project-001" to "PRO-001". -/
theorem claim_C7 :
    proj_code ["PROJ-001"] = some ("PRO-001") ∧
    proj_code ["proj-001"] = some ("PRO-001") ∧
    proj_code ["P-001"] = some ("PRO-001") ∧
    proj_code ["project-001"] = some ("PRO-001") := by
  decide

/-- Claim C8: the vendor name extractor returns "John Smith Consulting",
"John O'Brien Consulting" (with the apostrophe) and "John Smith Co."
(with the trailing period) verbatim, and returns the absent result for
"John smith consulting", which lacks a second capitalized word. -/
theorem claim_C8 :
    vendor_name ["John Smith Consulting"] = some ("John Smith Consulting") ∧
    vendor_name [obrienName] = some (obrienName) ∧
    vendor_name ["John Smith Co."] = some ("John Smith Co.") ∧
    vendor_name ["John smith consulting"] = none := by
  decide

/-- Claim C9: the description extractor returns "Doing stuff" and
"UI/UX work" verbatim but rejects "John Smith Consulting": a string made
only of capitalized words never matches. -/
theorem claim_C9 :
    description ["Doing stuff"] = some ("Doing stuff") ∧
    description ["UI/UX work"] = some ("UI/UX work") ∧
    description ["John Smith Consulting"] = none := by
  decide

/-- Claim C5: on the CSV-row fragment sequence
["proj-002", "$1", "450.00", "John Smith Consulting", "03/15/2025"] the
Record Assembler produces Project Code "PRO-002", Amount "$1,450.00"
(digit groups concatenated and reparsed, not added), Vendor
"John Smith Consulting" and Original Date "March 15, 2025". -/
theorem claim_C5 (today : String) :
    csvAssemble today ["proj-002", "$1", "450.00", "John Smith Consulting", "03/15/2025"] =
      .ok [("Vendor", "John Smith Consulting"), ("Amount", "$1,450.00"),
        ("Date Processed", today), ("Project Code", "PRO-002"), ("Description", "MISSING"),
        ("Original Date", "March 15, 2025")] :=
  rfl

/-- Claim C2 (counterexample): on the fragment sequence ["N/A"] — whose
only fragment is skipped for containing a slash, so no numeric token is
collected — `invoice_amt` raises `ValueError` (from `float('')`) instead
of returning the absent result. -/
theorem claim_C2_counterexample : invoice_amt ["N/A"] = .error .valueError := by
  rfl

/-- Claim C2 (amended): for every fragment sequence in which no fragment
yields a numeric token (each fragment is skipped for containing a hyphen
or slash, or contains no digit), `invoice_amt` raises `ValueError`
(`float('')` on the empty concatenation) rather than returning the
absent result. -/
theorem claim_C2_amended (frags : List String)
    (h : ∀ f ∈ frags, ('-' ∈ f.data) ∨ ('/' ∈ f.data) ∨ ∀ c ∈ f.data, isDig c = false) :
    invoice_amt frags = .error .valueError := by
  simp [invoice_amt, amtTokens_eq_nil frags h, pyFloat]

/-- Witness for the amended claim C2 at the concrete no-token fragment
sequence ["abc", "x-y"]. -/
theorem claim_C2_witness : invoice_amt ["abc", "x-y"] = .error .valueError :=
  claim_C2_amended ["abc", "x-y"] (by decide)

/-- Claim C10: when the separator of a P/p-prefixed code is followed by
more than three digits (e.g. "PROJ-0015"), `proj_code` still succeeds and
returns "PRO-" plus the first three of those digits; it does not require
the digit run to be exactly three digits long. -/
theorem claim_C10 (d1 d2 d3 : Char) (rest : List Char) (h1 : isDig d1 = true)
    (h2 : isDig d2 = true) (h3 : isDig d3 = true) (_hne : rest ≠ [])
    (_hrest : ∀ c ∈ rest, isDig c = true) :
    proj_code [String.mk ('P' :: 'R' :: 'O' :: 'J' :: '-' :: d1 :: d2 :: d3 :: rest)] =
      some ("PRO-" ++ String.mk [d1, d2, d3]) := by
  have hhead : reHead projRE ('P' :: 'R' :: 'O' :: 'J' :: '-' :: d1 :: d2 :: d3 :: rest) =
      some rest := by
    simp [reHead, reMatch, projRE, reRep, isLetterAZ, isLowerAZ, isUpperAZ, h1, h2, h3]
  have hlen : ('P' :: 'R' :: 'O' :: 'J' :: '-' :: d1 :: d2 :: d3 :: rest).length -
      rest.length = 8 := by
    simp only [List.length_cons]
    omega
  rw [proj_code]
  simp only [data_mk]
  rw [reSearch, hhead]
  simp only [hlen]
  simp [lastN, List.take_succ_cons]

/-- Witness for claim C10 at the concrete fragment "PROJ-0015". -/
theorem claim_C10_witness :
    proj_code [String.mk ['P', 'R', 'O', 'J', '-', '0', '0', '1', '5']] =
      some ("PRO-" ++ String.mk ['0', '0', '1']) :=
  claim_C10 '0' '0' '1' ['5'] (by decide) (by decide) (by decide) (by decide) (by decide)

/-- Claim C1 (counterexample): a labeled text block containing only a
Description line is assembled into a record that lacks the Vendor key (it
likewise lacks Amount, Project Code and Original Date), so the
every-key-always-present invariant fails on the text-block path. -/
theorem claim_C1_counterexample :
    txtProcess "January 6, 2025" ["Description: Doing stuff", "---"] [] =
      .ok [[("Description", "Doing stuff"), ("Date Processed", "January 6, 2025"),
        ("Generated On", "January 6, 2025")]] ∧
    "Vendor" ∉ recKeys [("Description", "Doing stuff"),
      ("Date Processed", "January 6, 2025"), ("Generated On", "January 6, 2025")] := by
  constructor
  · rfl
  · decide

/-- Claim C1 (amended): every record assembled by the CSV path carries all
six required keys (in insertion order); every record emitted by the
text-block path carries the two timestamp keys Date Processed and
Generated On, but the five labelled field keys are present only when a
correspondingly labelled line occurred in the block. -/
theorem claim_C1_amended :
    (∀ (today : String) (frags : List String) (rec : Record),
        csvAssemble today frags = .ok rec →
        recKeys rec = ["Vendor", "Amount", "Date Processed", "Project Code", "Description",
          "Original Date"]) ∧
    (∀ (today : String) (lines : List String) (recs : List Record),
        txtProcess today lines [] = .ok recs →
        ∀ rec ∈ recs, "Date Processed" ∈ recKeys rec ∧ "Generated On" ∈ recKeys rec) := by
  constructor
  · intro today frags rec h
    rw [csvAssemble] at h
    rcases ha : invoice_amt frags with e | amt
    · rw [ha] at h
      cases h
    · rw [ha] at h
      cases h
      rfl
  · intro today lines recs h
    exact txt_keys today lines [] recs h

/-- Witness for the amended claim C1: the CSV part at the one-fragment row
["7"] and the text part at a block with a single Description line. -/
theorem claim_C1_witness :
    recKeys [("Vendor", "MISSING"), ("Amount", "$7.00"), ("Date Processed", "T"),
        ("Project Code", "MISSING"), ("Description", "MISSING"), ("Original Date", "MISSING")] =
      ["Vendor", "Amount", "Date Processed", "Project Code", "Description",
        "Original Date"] ∧
    ("Date Processed" ∈ recKeys [("Description", "Doing stuff"), ("Date Processed", "T"),
        ("Generated On", "T")] ∧
      "Generated On" ∈ recKeys [("Description", "Doing stuff"), ("Date Processed", "T"),
        ("Generated On", "T")]) :=
  ⟨claim_C1_amended.1 "T" ["7"]
      [("Vendor", "MISSING"), ("Amount", "$7.00"), ("Date Processed", "T"),
        ("Project Code", "MISSING"), ("Description", "MISSING"), ("Original Date", "MISSING")]
      (by rfl),
    claim_C1_amended.2 "T" ["Description: Doing stuff", "---"]
      [[("Description", "Doing stuff"), ("Date Processed", "T"), ("Generated On", "T")]]
      (by rfl)
      [("Description", "Doing stuff"), ("Date Processed", "T"), ("Generated On", "T")]
      (by simp)⟩

/-- Claim C4: `number_date` tries its six grammars in the fixed source
order with first success winning, so whenever the searched date matches
the first grammar (month/day/4-digit-year, slash) that month/day reading
is returned; in particular "03/20/2025", "03-20-2025", "2025/03/20",
"2025-03-20", "20/03/2025" and "20-03-2025" all yield "March 20, 2025"
(the last two only via the day/month grammars, reached because every
month/day and year-first grammar fails on them). -/
theorem claim_C4 :
    (∀ (s : String) (m rest : List Char) (ymd : Nat × Nat × Nat),
        reSearch numRE s.data = some (m, rest) → strptimeNum .mdySlash m = some ymd →
        number_date [s] = some (renderDate ymd)) ∧
    number_date ["03/20/2025"] = some ("March 20, 2025") ∧
    number_date ["03-20-2025"] = some ("March 20, 2025") ∧
    number_date ["2025/03/20"] = some ("March 20, 2025") ∧
    number_date ["2025-03-20"] = some ("March 20, 2025") ∧
    number_date ["20/03/2025"] = some ("March 20, 2025") ∧
    number_date ["20-03-2025"] = some ("March 20, 2025") := by
  refine ⟨?_, by decide, by decide, by decide, by decide, by decide, by decide⟩
  intro s m rest ymd h1 h2
  rw [number_date, h1]
  simp [tryNumFmts, numFmtOrder, h2]

/-- Witness for claim C4: the universal part applied at "03/20/2025". -/
theorem claim_C4_witness :
    number_date ["03/20/2025"] = some (renderDate (2025, 3, 20)) :=
  claim_C4.1 "03/20/2025" ("03/20/2025".data) [] (2025, 3, 20) (by decide) (by decide)

/-- Claim C3: an input whose only date-like content carries a two-digit
year is never parsed: every six-digit `dd sep dd sep dd` string (such as
"03-20-25") matches the search pattern but fails all six grammars — none
accepts a two-digit year — and every `d sep dd sep dd` string (such as
"3-20-25") does not even match the search pattern; `number_date` returns
the absent result for both families. -/
theorem claim_C3 :
    (∀ m1 m2 d1 d2 y1 y2 s1 s2 : Char,
        isDig m1 = true → isDig m2 = true → isDig d1 = true → isDig d2 = true →
        isDig y1 = true → isDig y2 = true → s1 = '-' ∨ s1 = '/' → s2 = '-' ∨ s2 = '/' →
        number_date [String.mk [m1, m2, s1, d1, d2, s2, y1, y2]] = none) ∧
    (∀ d1 d2 d3 d4 d5 s1 s2 : Char,
        isDig d1 = true → isDig d2 = true → isDig d3 = true → isDig d4 = true →
        isDig d5 = true → s1 = '-' ∨ s1 = '/' → s2 = '-' ∨ s2 = '/' →
        number_date [String.mk [d1, s1, d2, d3, s2, d4, d5]] = none) := by
  constructor
  · intro m1 m2 d1 d2 y1 y2 s1 s2 hm1 hm2 hd1 hd2 hy1 hy2 hs1 hs2
    have nm1d : m1 ≠ '-' := ne_of_isDig hm1 (by decide)
    have nm2d : m2 ≠ '-' := ne_of_isDig hm2 (by decide)
    have nd1d : d1 ≠ '-' := ne_of_isDig hd1 (by decide)
    have nd2d : d2 ≠ '-' := ne_of_isDig hd2 (by decide)
    have ny1d : y1 ≠ '-' := ne_of_isDig hy1 (by decide)
    have ny2d : y2 ≠ '-' := ne_of_isDig hy2 (by decide)
    have nm1s : m1 ≠ '/' := ne_of_isDig hm1 (by decide)
    have nm2s : m2 ≠ '/' := ne_of_isDig hm2 (by decide)
    have nd1s : d1 ≠ '/' := ne_of_isDig hd1 (by decide)
    have nd2s : d2 ≠ '/' := ne_of_isDig hd2 (by decide)
    have ny1s : y1 ≠ '/' := ne_of_isDig hy1 (by decide)
    have ny2s : y2 ≠ '/' := ne_of_isDig hy2 (by decide)
    rcases hs1 with rfl | rfl <;> rcases hs2 with rfl | rfl <;>
    · rw [number_date]
      simp only [data_mk]
      rw [reSearch]
      simp [reHead, reMatch, numRE, reRep, d24RE, sepRE, reOpt, tryNumFmts, numFmtOrder,
        strptimeNum, NumFmt.sep, splitOnChar, monthTok, dayTok, yearTok, hm1, hm2, hd1, hd2,
        hy1, hy2, nm1d, nm2d, nd1d, nd2d, ny1d, ny2d, nm1s, nm2s, nd1s, nd2s, ny1s, ny2s]
  · intro d1 d2 d3 d4 d5 s1 s2 h1 h2 h3 h4 h5 hs1 hs2
    rcases hs1 with rfl | rfl <;> rcases hs2 with rfl | rfl <;>
    · rw [number_date]
      simp only [data_mk]
      simp [reSearch, reHead, reMatch, numRE, reRep, d24RE, sepRE, reOpt, h1, h2, h3, h4, h5]
      rfl

/-- Witness for claim C3 at the concrete inputs "03-20-25" and "3-20-25". -/
theorem claim_C3_witness :
    number_date [String.mk ['0', '3', '-', '2', '0', '-', '2', '5']] = none ∧
    number_date [String.mk ['3', '-', '2', '0', '-', '2', '5']] = none :=
  ⟨claim_C3.1 '0' '3' '2' '0' '2' '5' '-' '-' (by decide) (by decide) (by decide) (by decide)
      (by decide) (by decide) (Or.inl rfl) (Or.inl rfl),
    claim_C3.2 '3' '2' '0' '2' '5' '-' '-' (by decide) (by decide) (by decide) (by decide)
      (by decide) (Or.inl rfl) (Or.inl rfl)⟩

/-! ## Idempotence of the date normalizer (claim C6) -/

theorem daysInMonth_le_31 (m y : Nat) : daysInMonth m y ≤ 31 := by
  unfold daysInMonth
  split
  · split <;> omega
  · split <;> omega

theorem digitChar_eq_s {k : Nat} (h : k < 10) : (digitChar k = 's') = False :=
  eq_false (digitChar_ne h (by decide))

theorem digitChar_eq_t {k : Nat} (h : k < 10) : (digitChar k = 't') = False :=
  eq_false (digitChar_ne h (by decide))

theorem digitChar_eq_n {k : Nat} (h : k < 10) : (digitChar k = 'n') = False :=
  eq_false (digitChar_ne h (by decide))

theorem digitChar_eq_r {k : Nat} (h : k < 10) : (digitChar k = 'r') = False :=
  eq_false (digitChar_ne h (by decide))

theorem data_space : (" " : String).data = [' '] := rfl

theorem data_comma_space : (", " : String).data = [',', ' '] := rfl

theorem data_Jan : ("January" : String).data = ['J', 'a', 'n', 'u', 'a', 'r', 'y'] := rfl
theorem data_Feb : ("February" : String).data = ['F', 'e', 'b', 'r', 'u', 'a', 'r', 'y'] := rfl
theorem data_Mar : ("March" : String).data = ['M', 'a', 'r', 'c', 'h'] := rfl
theorem data_Apr : ("April" : String).data = ['A', 'p', 'r', 'i', 'l'] := rfl
theorem data_May : ("May" : String).data = ['M', 'a', 'y'] := rfl
theorem data_Jun : ("June" : String).data = ['J', 'u', 'n', 'e'] := rfl
theorem data_Jul : ("July" : String).data = ['J', 'u', 'l', 'y'] := rfl
theorem data_Aug : ("August" : String).data = ['A', 'u', 'g', 'u', 's', 't'] := rfl
theorem data_Sep : ("September" : String).data = ['S', 'e', 'p', 't', 'e', 'm', 'b', 'e', 'r'] :=
  rfl
theorem data_Oct : ("October" : String).data = ['O', 'c', 't', 'o', 'b', 'e', 'r'] := rfl
theorem data_Nov : ("November" : String).data = ['N', 'o', 'v', 'e', 'm', 'b', 'e', 'r'] := rfl
theorem data_Dec : ("December" : String).data = ['D', 'e', 'c', 'e', 'm', 'b', 'e', 'r'] := rfl

theorem isDig_letter {c : Char} (h : isLetterAZ c = true) : isDig c = false := by
  rcases Bool.or_eq_true_iff.mp (by simpa [isLetterAZ] using h) with h2 | h2
  · simp only [isLowerAZ, decide_eq_true_eq] at h2
    simp only [isDig, decide_eq_false_iff_not]
    intro hc
    exact absurd (le_trans h2.1 hc.2) (by decide)
  · simp only [isUpperAZ, decide_eq_true_eq] at h2
    simp only [isDig, decide_eq_false_iff_not]
    intro hc
    exact absurd (le_trans h2.1 hc.2) (by decide)

theorem isDig_space : isDig ' ' = false := rfl

set_option maxHeartbeats 2000000

/-- Claim C6: the combined date normalizer is idempotent on its own output:
a string already in canonical form "<FullMonthName> <Day>, <Year>" (day
unpadded and valid for the month, four-digit year) is returned unchanged
by `date_cleaner`. -/
theorem claim_C6 (m d y : Nat) (hm1 : 1 ≤ m) (hm2 : m ≤ 12) (hd1 : 1 ≤ d)
    (hd2 : d ≤ daysInMonth m y) (hy1 : 1000 ≤ y) (hy2 : y ≤ 9999) :
    date_cleaner [canonDate m d y] = some (canonDate m d y) := by
  have hd31 : d ≤ 31 := le_trans hd2 (daysInMonth_le_31 m y)
  have hy4 := natDigits_four hy1 hy2
  have q1 : y / 1000 < 10 := by omega
  have q2 : y / 100 % 10 < 10 := by omega
  have q3 : y / 10 % 10 < 10 := by omega
  have q4 : y % 10 < 10 := by omega
  have c1y : 1 ≤ y := by omega
  have icomma : isDig ',' = false := rfl
  have hyval :
      10 * (10 * (10 * (y / 1000) + y / 100 % 10) + y / 10 % 10) + y % 10 = y := by
    omega
  interval_cases m <;>
    (rcases Nat.lt_or_ge d 10 with hds | hds
     · have hdd := natDigits_lt hds
       have hd9 : d ≤ 9 := by omega
       simp [date_cleaner, text_date, canonDate, monthName, data_append, data_natStr,
         data_space, data_comma_space, data_Jan, data_Feb, data_Mar, data_Apr, data_May,
         data_Jun, data_Jul, data_Aug, data_Sep, data_Oct, data_Nov, data_Dec, hdd, hy4,
         reSearch, reHead, reMatch, textRE, rePlus, reOpt, reRep, chr, ordinalSub,
         ordinalSubAux, ordRE, reStr, strptimeText, monthFromNames, stripCI, asciiLower,
         isLowerAZ, isUpperAZ, isLetterAZ, isDig_letter, isDig_space,
         dayCommaYearEnd, commaYearEnd, mkDate, renderDate, parseDigits,
         isDig_digitChar, digVal_digitChar, digitChar_eq_s, digitChar_eq_t, digitChar_eq_n,
         digitChar_eq_r, q1, q2, q3, q4, hds, hd9, icomma, hyval, hd1, hd2, hd31, c1y, hy1,
         hy2]
     · have hdd := natDigits_two hds (by omega)
       have qd1 : d / 10 < 10 := by omega
       have qd2 : d % 10 < 10 := by omega
       have hdval : 10 * (d / 10) + d % 10 = d := by omega
       simp [date_cleaner, text_date, canonDate, monthName, data_append, data_natStr,
         data_space, data_comma_space, data_Jan, data_Feb, data_Mar, data_Apr, data_May,
         data_Jun, data_Jul, data_Aug, data_Sep, data_Oct, data_Nov, data_Dec, hdd, hy4,
         reSearch, reHead, reMatch, textRE, rePlus, reOpt, reRep, chr, ordinalSub,
         ordinalSubAux, ordRE, reStr, strptimeText, monthFromNames, stripCI, asciiLower,
         isLowerAZ, isUpperAZ, isLetterAZ, isDig_letter, isDig_space,
         dayCommaYearEnd, commaYearEnd, mkDate, renderDate, parseDigits,
         isDig_digitChar, digVal_digitChar, digitChar_eq_s, digitChar_eq_t, digitChar_eq_n,
         digitChar_eq_r, q1, q2, q3, q4, qd1, qd2, hdval, icomma, hyval, hd1, hd2, hd31,
         c1y, hy1, hy2])

/-- Witness for claim C6 at the concrete canonical date "March 1, 2025". -/
theorem claim_C6_witness :
    date_cleaner [canonDate 3 1 2025] = some (canonDate 3 1 2025) :=
  claim_C6 3 1 2025 (by decide) (by decide) (by decide) (by decide) (by decide) (by decide)

end Invoices
